import Mathlib

/-!
Shallow embedding of the integration-validator CLI (src/src/main.rs).

Strings are modelled as lists of characters.  Rust's `str::trim` removes
leading and trailing characters with the Unicode White_Space property
(`char::is_whitespace`); `isWS` lists exactly those code points.
`to_ascii_uppercase` maps ASCII lowercase letters to uppercase and leaves
every other character unchanged.
-/

namespace IVCli

/-- The Unicode White_Space property, as tested by Rust's
`char::is_whitespace` and used by `str::trim`. -/
def isWS (c : Char) : Bool :=
  let n := c.toNat
  n = 0x9 || n = 0xA || n = 0xB || n = 0xC || n = 0xD || n = 0x20 ||
  n = 0x85 || n = 0xA0 || n = 0x1680 || (0x2000 ≤ n && n ≤ 0x200A) ||
  n = 0x2028 || n = 0x2029 || n = 0x202F || n = 0x205F || n = 0x3000

/-- Rust `str::trim`: drop whitespace from the front, then from the back. -/
def trim (s : List Char) : List Char :=
  (s.dropWhile isWS).rdropWhile isWS

/-- Rust `char::to_ascii_uppercase`: ASCII letters a-z map to A-Z,
all other characters are unchanged. -/
def asciiUpperChar (c : Char) : Char :=
  if 97 ≤ c.toNat ∧ c.toNat ≤ 122 then Char.ofNat (c.toNat - 32) else c

/-- Rust `str::to_ascii_uppercase`, character by character. -/
def toAsciiUppercase (s : List Char) : List Char :=
  s.map asciiUpperChar

/-- The `Order` struct: three optional string fields. -/
structure Order where
  event_id : Option (List Char)
  part_number : Option (List Char)
  timestamp : Option (List Char)
deriving DecidableEq

/-- The `Severity` enum of the source: its only variant is `Error`. -/
inductive Severity where
  | error
deriving DecidableEq

/-- The `Issue` struct: field name, severity, message. -/
structure Issue where
  field : String
  severity : Severity
  message : String
deriving DecidableEq

/-- The `Issue::error` constructor function. -/
def Issue.error (field : String) (msg : String) : Issue :=
  { field := field, severity := Severity.error, message := msg }

/-- The `validate` function: one check per field, pushed in source order
(event_id, part_number, timestamp). -/
def validate (order : Order) : List Issue :=
  let i1 : List Issue :=
    match order.event_id with
    | none => [Issue.error "event_id" "missing required field"]
    | some v => if trim v = [] then [Issue.error "event_id" "must not be empty"] else []
  let i2 : List Issue :=
    match order.part_number with
    | none => [Issue.error "part_number" "missing required field"]
    | some v => if trim v = [] then [Issue.error "part_number" "must not be empty"] else []
  let i3 : List Issue :=
    match order.timestamp with
    | none => [Issue.error "timestamp" "missing required field"]
    | some v => if trim v = [] then [Issue.error "timestamp" "must not be empty"] else []
  i1 ++ i2 ++ i3

/-- The `clean_input` function: per field, trim; blank becomes `none`;
`part_number` is additionally ASCII-uppercased. -/
def clean_input (order : Order) : Order :=
  let event_id :=
    match order.event_id with
    | none => none
    | some v =>
      let trimmed := trim v
      if trimmed = [] then none else some trimmed
  let part_number :=
    match order.part_number with
    | none => none
    | some v =>
      let trimmed := trim v
      if trimmed = [] then none else some (toAsciiUppercase trimmed)
  let timestamp :=
    match order.timestamp with
    | none => none
    | some v =>
      let trimmed := trim v
      if trimmed = [] then none else some trimmed
  { event_id := event_id, part_number := part_number, timestamp := timestamp }

/-- The observable content of `print_report`: the error count, the total
issue count, and one (field, message) line per issue in input order. -/
structure Report where
  errors : Nat
  total : Nat
  lines : List (String × String)
deriving DecidableEq

/-- The `print_report` function, as the data it renders. -/
def print_report (issues : List Issue) : Report :=
  { errors := (issues.filter (fun i => match i.severity with | Severity.error => true)).length
    total := issues.length
    lines := issues.map (fun i => (i.field, i.message)) }

/-- The test `issues.iter().any(|i| matches!(i.severity, Severity::Error))`
used by `main` to decide failure. -/
def hasError (issues : List Issue) : Bool :=
  issues.any (fun i => match i.severity with | Severity.error => true)

/-- Outcome of reading and parsing one input file. -/
inductive FileResult where
  | ok (order : Order)
  | readError
  | parseError
deriving DecidableEq

/-- Whether a file was read and parsed successfully. -/
def FileResult.isOk : FileResult → Bool
  | .ok _ => true
  | .readError => false
  | .parseError => false

/-- Observable outcome of a directory run: the validation reports printed
(one per file reached with a parsed record, in order) and the exit code. -/
structure DirOutcome where
  reports : List (List Issue)
  exit : Nat
deriving DecidableEq

/-- The per-file loop of `main`'s directory branch.  A read or parse
failure calls `process::exit(1)` at once (no further files are reached);
otherwise the record is cleaned, validated and reported, the failure flag
is or-ed with the presence of an error issue, and at the end the flag
decides the exit code. -/
def runDirFrom : List FileResult → Bool → DirOutcome
  | [], anyFailed => { reports := [], exit := if anyFailed then 1 else 0 }
  | .readError :: _, _ => { reports := [], exit := 1 }
  | .parseError :: _, _ => { reports := [], exit := 1 }
  | .ok o :: rest, anyFailed =>
    let issues := validate (clean_input o)
    let res := runDirFrom rest (anyFailed || hasError issues)
    { reports := issues :: res.reports, exit := res.exit }

/-- `main`'s directory branch: an empty file list exits 1, otherwise the
per-file loop runs with the failure flag initially false. -/
def runDir (files : List FileResult) : DirOutcome :=
  if files.isEmpty then { reports := [], exit := 1 } else runDirFrom files false

/-- What the input path resolves to: missing, a regular file (with its
read/parse outcome), a directory (with the sorted list of its `.json`
files' outcomes), or something else. -/
inductive InputPath where
  | missing
  | file (r : FileResult)
  | dir (files : List FileResult)
  | notRegular

/-- The exit code of `main` on each kind of input. -/
def mainRun : InputPath → Nat
  | .missing => 1
  | .dir files => (runDir files).exit
  | .file .readError => 1
  | .file .parseError => 1
  | .file (.ok o) => if hasError (validate (clean_input o)) then 1 else 0
  | .notRegular => 1

/-! ### Definitions taken from the specification's wording -/

/-- Spec 4.1, per-field rule for the identifier and timestamp fields:
absent stays absent; a present value is trimmed; blank after trimming
becomes absent; otherwise present with the trimmed value. -/
def specNormField (v : Option (List Char)) : Option (List Char) :=
  match v with
  | none => none
  | some s => if trim s = [] then none else some (trim s)

/-- Spec 4.1, per-field rule for the part-code field: as `specNormField`,
but the surviving trimmed value is additionally ASCII-uppercased. -/
def specNormPartField (v : Option (List Char)) : Option (List Char) :=
  match v with
  | none => none
  | some s => if trim s = [] then none else some (toAsciiUppercase (trim s))

/-- Selector for the three required fields, in validator order. -/
inductive Fld where
  | event_id
  | part_number
  | timestamp
deriving DecidableEq

/-- The value a record holds in a given field. -/
def fieldVal (r : Order) : Fld → Option (List Char)
  | .event_id => r.event_id
  | .part_number => r.part_number
  | .timestamp => r.timestamp

/-- The name the validator reports for a given field. -/
def fldName : Fld → String
  | .event_id => "event_id"
  | .part_number => "part_number"
  | .timestamp => "timestamp"

/-- A record whose normalize-then-validate pipeline yields no
error-severity issue. -/
def noErrorIssues (o : Order) : Bool :=
  !hasError (validate (clean_input o))

/-- A file that parses and whose record passes the pipeline cleanly. -/
def fileOk : FileResult → Bool
  | .ok o => noErrorIssues o
  | .readError => false
  | .parseError => false

/-- Spec 6, exit-code rule, as a predicate on the resolved input: success
means no path failure, no read/parse failure, a non-empty directory, and
no error-severity issue on any processed record. -/
def specSuccess : InputPath → Bool
  | .missing => false
  | .notRegular => false
  | .file f => fileOk f
  | .dir files => !files.isEmpty && files.all fileOk

/-- The shape of one field check of `validate`: absent yields the missing
issue, blank yields the empty issue, otherwise nothing. -/
def vfield (v : Option (List Char)) (name : String) : List Issue :=
  match v with
  | none => [Issue.error name "missing required field"]
  | some s => if trim s = [] then [Issue.error name "must not be empty"] else []

/-- A concrete record with all three fields present and non-blank. -/
def sampleOk : Order :=
  { event_id := some ['a'], part_number := some ['b'], timestamp := some ['c'] }

/-- A concrete record with every field absent. -/
def sampleMissing : Order :=
  { event_id := none, part_number := none, timestamp := none }

/-! ### Facts about trimming and ASCII uppercasing -/

theorem toNat_ofNat_of_small {n : Nat} (h : n < 55296) : (Char.ofNat n).toNat = n := by
  have hv : n.isValidChar := Or.inl h
  rw [Char.ofNat, dif_pos hv]
  simp [Char.ofNatAux, Char.toNat, UInt32.toNat]

theorem asciiUpperChar_toNat_of_lower {c : Char} (h1 : 97 ≤ c.toNat) (h2 : c.toNat ≤ 122) :
    (asciiUpperChar c).toNat = c.toNat - 32 := by
  rw [asciiUpperChar, if_pos ⟨h1, h2⟩]
  exact toNat_ofNat_of_small (by omega)

theorem isWS_asciiUpperChar (c : Char) : isWS (asciiUpperChar c) = isWS c := by
  by_cases h : 97 ≤ c.toNat ∧ c.toNat ≤ 122
  · have hu : (asciiUpperChar c).toNat = c.toNat - 32 :=
      asciiUpperChar_toNat_of_lower h.1 h.2
    have e1 : isWS (asciiUpperChar c) = false := by
      simp only [isWS, hu]
      simp only [Bool.or_eq_false_iff, Bool.and_eq_false_iff, decide_eq_false_iff_not]
      omega
    have e2 : isWS c = false := by
      simp only [isWS]
      simp only [Bool.or_eq_false_iff, Bool.and_eq_false_iff, decide_eq_false_iff_not]
      omega
    rw [e1, e2]
  · rw [asciiUpperChar, if_neg h]

theorem asciiUpperChar_of_not_lower {c : Char} (h : ¬(97 ≤ c.toNat ∧ c.toNat ≤ 122)) :
    asciiUpperChar c = c := by
  simp only [asciiUpperChar, if_neg h]

theorem asciiUpperChar_idem (c : Char) :
    asciiUpperChar (asciiUpperChar c) = asciiUpperChar c := by
  by_cases h : 97 ≤ c.toNat ∧ c.toNat ≤ 122
  · have hu : (asciiUpperChar c).toNat = c.toNat - 32 :=
      asciiUpperChar_toNat_of_lower h.1 h.2
    exact asciiUpperChar_of_not_lower (by rw [hu]; omega)
  · rw [asciiUpperChar_of_not_lower h, asciiUpperChar_of_not_lower h]

theorem dropWhile_trim (s : List Char) : (trim s).dropWhile isWS = trim s := by
  simp only [trim]
  rw [List.dropWhile_eq_self_iff]
  intro hl
  have hpre : (s.dropWhile isWS).rdropWhile isWS <+: s.dropWhile isWS :=
    List.rdropWhile_prefix isWS (s.dropWhile isWS)
  have hlen : 0 < (s.dropWhile isWS).length := Nat.lt_of_lt_of_le hl hpre.length_le
  have h0 : ((s.dropWhile isWS).rdropWhile isWS).get ⟨0, hl⟩ =
      (s.dropWhile isWS).get ⟨0, hlen⟩ := by
    simpa using hpre.getElem hl
  rw [h0]
  exact List.dropWhile_get_zero_not isWS s hlen

theorem trim_trim (s : List Char) : trim (trim s) = trim s := by
  show ((trim s).dropWhile isWS).rdropWhile isWS = trim s
  rw [dropWhile_trim]
  simp only [trim]
  exact List.rdropWhile_idempotent isWS (s.dropWhile isWS)

theorem trim_toAsciiUppercase (s : List Char) :
    trim (toAsciiUppercase s) = toAsciiUppercase (trim s) := by
  have hfun : (isWS ∘ asciiUpperChar) = isWS := by
    funext c
    exact isWS_asciiUpperChar c
  simp only [trim, toAsciiUppercase, List.rdropWhile, List.dropWhile_map, hfun,
    ← List.map_reverse]

theorem toAsciiUppercase_eq_nil {s : List Char} : toAsciiUppercase s = [] ↔ s = [] := by
  simp [toAsciiUppercase]

theorem toAsciiUppercase_idem (s : List Char) :
    toAsciiUppercase (toAsciiUppercase s) = toAsciiUppercase s := by
  simp only [toAsciiUppercase, List.map_map]
  exact List.map_congr_left fun c _ => asciiUpperChar_idem c

/-! ### Facts about the normalizer -/

theorem clean_input_eq (r : Order) :
    clean_input r =
      { event_id := specNormField r.event_id
        part_number := specNormPartField r.part_number
        timestamp := specNormField r.timestamp } := by
  rcases r with ⟨e, p, t⟩
  cases e <;> cases p <;> cases t <;> rfl

theorem specNormField_idem (v : Option (List Char)) :
    specNormField (specNormField v) = specNormField v := by
  cases v with
  | none => rfl
  | some s =>
    by_cases h : trim s = []
    · simp [specNormField, h]
    · simp [specNormField, h, trim_trim]

theorem specNormPartField_idem (v : Option (List Char)) :
    specNormPartField (specNormPartField v) = specNormPartField v := by
  cases v with
  | none => rfl
  | some s =>
    by_cases h : trim s = []
    · simp [specNormPartField, h]
    · simp [specNormPartField, h, trim_toAsciiUppercase, trim_trim,
        toAsciiUppercase_eq_nil, toAsciiUppercase_idem]

theorem specNormField_some {w : Option (List Char)} {v : List Char}
    (h : specNormField w = some v) : trim v ≠ [] := by
  cases w with
  | none => simp [specNormField] at h
  | some s =>
    by_cases hs : trim s = []
    · simp [specNormField, hs] at h
    · simp only [specNormField, if_neg hs] at h
      obtain rfl : v = trim s := (Option.some_inj.mp h).symm
      rw [trim_trim]
      exact hs

theorem specNormPartField_some {w : Option (List Char)} {v : List Char}
    (h : specNormPartField w = some v) : trim v ≠ [] := by
  cases w with
  | none => simp [specNormPartField] at h
  | some s =>
    by_cases hs : trim s = []
    · simp [specNormPartField, hs] at h
    · simp only [specNormPartField, if_neg hs] at h
      obtain rfl : v = toAsciiUppercase (trim s) := (Option.some_inj.mp h).symm
      rw [trim_toAsciiUppercase, trim_trim]
      simp [toAsciiUppercase_eq_nil, hs]

/-! ### Facts about the validator -/

theorem validate_eq_vfield (o : Order) :
    validate o = vfield o.event_id "event_id" ++ vfield o.part_number "part_number" ++
      vfield o.timestamp "timestamp" := by
  rcases o with ⟨e, p, t⟩
  cases e <;> cases p <;> cases t <;> rfl

theorem vfield_no_blank {w : Option (List Char)} (name : String)
    (hw : ∀ v, w = some v → trim v ≠ []) :
    ∀ i ∈ vfield w name, i.message ≠ "must not be empty" := by
  intro i hi
  cases w with
  | none =>
    simp only [vfield, List.mem_singleton] at hi
    subst hi
    simp [Issue.error]
  | some v =>
    simp only [vfield, if_neg (hw v rfl)] at hi
    simp at hi

theorem validate_no_blank_issue (o : Order)
    (h1 : ∀ v, o.event_id = some v → trim v ≠ [])
    (h2 : ∀ v, o.part_number = some v → trim v ≠ [])
    (h3 : ∀ v, o.timestamp = some v → trim v ≠ []) :
    ∀ i ∈ validate o, i.message ≠ "must not be empty" := by
  intro i hi
  rw [validate_eq_vfield] at hi
  simp only [List.mem_append] at hi
  rcases hi with (hi | hi) | hi
  · exact vfield_no_blank _ h1 i hi
  · exact vfield_no_blank _ h2 i hi
  · exact vfield_no_blank _ h3 i hi

/-! ### Facts about the directory loop -/

theorem runDirFrom_exit (files : List FileResult) (b : Bool) :
    (runDirFrom files b).exit = if !b && files.all fileOk then 0 else 1 := by
  induction files generalizing b with
  | nil => cases b <;> simp [runDirFrom]
  | cons f rest ih =>
    cases f with
    | readError => simp [runDirFrom, fileOk]
    | parseError => simp [runDirFrom, fileOk]
    | ok o =>
      simp only [runDirFrom]
      rw [ih]
      simp only [List.all_cons, fileOk, noErrorIssues, Bool.not_or, Bool.and_assoc]

theorem runDirFrom_reports_all_ok (files : List FileResult) (b : Bool)
    (h : ∀ f ∈ files, FileResult.isOk f = true) :
    (runDirFrom files b).reports.length = files.length := by
  induction files generalizing b with
  | nil => rfl
  | cons f rest ih =>
    cases f with
    | ok o =>
      simp only [runDirFrom, List.length_cons]
      rw [ih _ fun g hg => h g (List.mem_cons_of_mem _ hg)]
    | readError =>
      have := h _ (List.mem_cons_self _ _)
      simp [FileResult.isOk] at this
    | parseError =>
      have := h _ (List.mem_cons_self _ _)
      simp [FileResult.isOk] at this

theorem runDirFrom_abort (pre : List FileResult) (b0 : FileResult)
    (post : List FileResult) (b : Bool)
    (hpre : ∀ f ∈ pre, FileResult.isOk f = true) (hb : FileResult.isOk b0 = false) :
    (runDirFrom (pre ++ b0 :: post) b).reports.length = pre.length ∧
    (runDirFrom (pre ++ b0 :: post) b).exit = 1 := by
  induction pre generalizing b with
  | nil =>
    cases b0 with
    | ok o => simp [FileResult.isOk] at hb
    | readError => exact ⟨rfl, rfl⟩
    | parseError => exact ⟨rfl, rfl⟩
  | cons f rest ih =>
    cases f with
    | ok o =>
      have hrec := ih (b || hasError (validate (clean_input o)))
        (fun g hg => hpre g (List.mem_cons_of_mem _ hg))
      simp only [List.cons_append, runDirFrom, List.length_cons]
      exact ⟨congrArg (fun n => n + 1) hrec.1, hrec.2⟩
    | readError =>
      have := hpre _ (List.mem_cons_self _ _)
      simp [FileResult.isOk] at this
    | parseError =>
      have := hpre _ (List.mem_cons_self _ _)
      simp [FileResult.isOk] at this

theorem vfield_fields (w : Option (List Char)) (name : String) :
    (vfield w name).map Issue.field = [] ∨ (vfield w name).map Issue.field = [name] := by
  cases w with
  | none => right; rfl
  | some v =>
    by_cases h : trim v = []
    · right; simp [vfield, h, Issue.error]
    · left; simp [vfield, h]

/-! ### The claims -/

/-- Claim C1: `clean_input` maps the three fields independently, each by
the rule: absent stays absent, a present value is trimmed, blank after
trimming becomes absent, otherwise the field keeps the trimmed value, with
`part_number` additionally uppercased; and the uppercasing is an ASCII
case mapping only, leaving every character outside a..z unchanged. -/
theorem claim1_clean_input_fieldwise (r : Order) :
    clean_input r =
      { event_id := specNormField r.event_id
        part_number := specNormPartField r.part_number
        timestamp := specNormField r.timestamp } ∧
    ∀ c : Char, ¬(97 ≤ c.toNat ∧ c.toNat ≤ 122) → asciiUpperChar c = c :=
  ⟨clean_input_eq r, fun _ hc => asciiUpperChar_of_not_lower hc⟩

/-- Witness for claim C1 at a concrete record and a concrete non-lowercase
character. -/
theorem claim1_witness :
    clean_input { event_id := some [' ', 'a', 'b', ' '], part_number := some ['z', 'x']
                  timestamp := none } =
      { event_id := some ['a', 'b'], part_number := some ['Z', 'X'], timestamp := none } ∧
    asciiUpperChar 'A' = 'A' := by
  constructor
  · rw [(claim1_clean_input_fieldwise _).1]
    decide
  · exact (claim1_clean_input_fieldwise sampleMissing).2 'A' (by decide)

/-- Claim C2: normalization is idempotent: cleaning a record twice gives
the same record as cleaning it once. -/
theorem claim2_clean_input_idempotent (r : Order) :
    clean_input (clean_input r) = clean_input r := by
  rw [clean_input_eq r, clean_input_eq]
  simp [specNormField_idem, specNormPartField_idem]

/-- Claim C3: the exit code is 0 exactly when the resolved input carries
no path failure, no read or parse failure, a non-empty matching file list
in directory mode, and no error-severity issue on any processed record;
otherwise it is 1, uniformly across single-file and directory modes. -/
theorem claim3_exit_code_rule (inp : InputPath) :
    mainRun inp = if specSuccess inp then 0 else 1 := by
  cases inp with
  | missing => rfl
  | notRegular => rfl
  | file f =>
    cases f with
    | readError => rfl
    | parseError => rfl
    | ok o =>
      simp only [mainRun, specSuccess, fileOk, noErrorIssues]
      rcases Bool.eq_false_or_eq_true (hasError (validate (clean_input o))) with hv | hv <;>
        simp [hv]
  | dir files =>
    simp only [mainRun, runDir, specSuccess]
    by_cases he : files.isEmpty
    · simp [he]
    · simp [he, runDirFrom_exit]

/-- Claim C4, counterexample: with a parse failure on the first file and a
valid second file, the directory run stops at once: no report is printed
for the second file (per-file continuation would have printed one) and the
exit code is 1. -/
theorem claim4_counterexample :
    (runDir [FileResult.parseError, FileResult.ok sampleOk]).reports = [] ∧
    (runDir [FileResult.parseError, FileResult.ok sampleOk]).exit = 1 :=
  ⟨rfl, rfl⟩

/-- Claim C4, amended: in directory mode a read or parse failure on one
file terminates the run immediately with exit code 1, so exactly the files
before it are reported; per-file continuation with the failure flag
propagated at the end applies only to validation failures, every
successfully parsed file being reported. -/
theorem claim4_amended_abort_on_failure :
    (∀ pre b0 post, (∀ f ∈ pre, FileResult.isOk f = true) → FileResult.isOk b0 = false →
      (runDir (pre ++ b0 :: post)).reports.length = pre.length ∧
      (runDir (pre ++ b0 :: post)).exit = 1) ∧
    (∀ files, (∀ f ∈ files, FileResult.isOk f = true) →
      (runDir files).reports.length = files.length) := by
  constructor
  · intro pre b0 post hpre hb
    rw [runDir, if_neg (by simp)]
    exact runDirFrom_abort pre b0 post false hpre hb
  · intro files hall
    cases files with
    | nil => rfl
    | cons f rest =>
      rw [runDir, if_neg (by simp)]
      exact runDirFrom_reports_all_ok _ false hall

/-- Witness for amended claim C4 at a concrete file list: one good file,
then a parse failure, then another good file. -/
theorem claim4_witness :
    (runDir [FileResult.ok sampleOk, FileResult.parseError, FileResult.ok sampleOk]).reports.length = 1 ∧
    (runDir [FileResult.ok sampleOk, FileResult.parseError, FileResult.ok sampleOk]).exit = 1 := by
  have h := claim4_amended_abort_on_failure.1 [FileResult.ok sampleOk] FileResult.parseError
    [FileResult.ok sampleOk] (by decide) rfl
  simpa using h

/-- Claim C5: a record whose three fields are all present and non-blank
validates with zero issues. -/
theorem claim5_valid_record_no_issues (r : Order) (v1 v2 v3 : List Char)
    (h1 : r.event_id = some v1) (h2 : r.part_number = some v2)
    (h3 : r.timestamp = some v3)
    (n1 : trim v1 ≠ []) (n2 : trim v2 ≠ []) (n3 : trim v3 ≠ []) :
    validate r = [] := by
  rcases r with ⟨e, p, t⟩
  cases h1
  cases h2
  cases h3
  simp [validate, n1, n2, n3]

/-- Witness for claim C5 at a concrete all-present record. -/
theorem claim5_witness : validate sampleOk = [] :=
  claim5_valid_record_no_issues sampleOk ['a'] ['b'] ['c'] rfl rfl rfl
    (by decide) (by decide) (by decide)

/-- Claim C6, counterexample: the record (absent, " ", "x") is missing
exactly one field, yet validation yields two issues, because the present
part_number is blank. -/
theorem claim6_counterexample :
    ({ event_id := none, part_number := some [' '], timestamp := some ['x'] } : Order).event_id
        = none ∧
    ({ event_id := none, part_number := some [' '], timestamp := some ['x'] } : Order).part_number.isSome
        = true ∧
    ({ event_id := none, part_number := some [' '], timestamp := some ['x'] } : Order).timestamp.isSome
        = true ∧
    validate { event_id := none, part_number := some [' '], timestamp := some ['x'] } =
      [Issue.error "event_id" "missing required field",
       Issue.error "part_number" "must not be empty"] := by
  refine ⟨rfl, rfl, rfl, ?_⟩
  decide

/-- Claim C6, amended: validating a record missing exactly one field,
whose other two fields are present and non-blank, yields exactly one
issue, naming the missing field, with message "missing required field". -/
theorem claim6_amended_missing_one (r : Order) (f : Fld)
    (hmiss : fieldVal r f = none)
    (hrest : ∀ g : Fld, g ≠ f → ∃ v, fieldVal r g = some v ∧ trim v ≠ []) :
    validate r = [Issue.error (fldName f) "missing required field"] := by
  rcases r with ⟨e, p, t⟩
  cases f with
  | event_id =>
    obtain ⟨v2, h2, n2⟩ := hrest Fld.part_number (by decide)
    obtain ⟨v3, h3, n3⟩ := hrest Fld.timestamp (by decide)
    simp only [fieldVal] at hmiss h2 h3
    subst hmiss
    cases h2
    cases h3
    simp [validate, fldName, n2, n3]
  | part_number =>
    obtain ⟨v1, h1, n1⟩ := hrest Fld.event_id (by decide)
    obtain ⟨v3, h3, n3⟩ := hrest Fld.timestamp (by decide)
    simp only [fieldVal] at hmiss h1 h3
    subst hmiss
    cases h1
    cases h3
    simp [validate, fldName, n1, n3]
  | timestamp =>
    obtain ⟨v1, h1, n1⟩ := hrest Fld.event_id (by decide)
    obtain ⟨v2, h2, n2⟩ := hrest Fld.part_number (by decide)
    simp only [fieldVal] at hmiss h1 h2
    subst hmiss
    cases h1
    cases h2
    simp [validate, fldName, n1, n2]

/-- Witness for amended claim C6 at a concrete record missing only the
event_id field. -/
theorem claim6_witness :
    validate { event_id := none, part_number := some ['b'], timestamp := some ['c'] } =
      [Issue.error "event_id" "missing required field"] :=
  claim6_amended_missing_one _ Fld.event_id rfl (by
    intro g hg
    cases g with
    | event_id => exact absurd rfl hg
    | part_number => exact ⟨['b'], rfl, by decide⟩
    | timestamp => exact ⟨['c'], rfl, by decide⟩)

/-- Claim C7: the fields of the issues returned by `validate` always form
a sublist of [event_id, part_number, timestamp]: the order is fixed by
field, never sorted by content. -/
theorem claim7_issue_order (r : Order) :
    List.Sublist ((validate r).map Issue.field) ["event_id", "part_number", "timestamp"] := by
  rw [validate_eq_vfield]
  simp only [List.map_append]
  rcases vfield_fields r.event_id "event_id" with h1 | h1 <;>
  rcases vfield_fields r.part_number "part_number" with h2 | h2 <;>
  rcases vfield_fields r.timestamp "timestamp" with h3 | h3 <;>
  rw [h1, h2, h3] <;> decide

/-- Claim C8: for each required field, an absent value produces the
"missing required field" issue and a present-but-blank value produces the
"must not be empty" issue, both carrying error severity. -/
theorem claim8_blank_and_missing (r : Order) (f : Fld) :
    (fieldVal r f = none →
      Issue.error (fldName f) "missing required field" ∈ validate r) ∧
    (∀ v, fieldVal r f = some v → trim v = [] →
      Issue.error (fldName f) "must not be empty" ∈ validate r) ∧
    (Issue.error (fldName f) "missing required field").severity = Severity.error ∧
    (Issue.error (fldName f) "must not be empty").severity = Severity.error := by
  refine ⟨?_, ?_, rfl, rfl⟩
  · intro h
    rcases r with ⟨e, p, t⟩
    cases f <;> simp only [fieldVal] at h <;> subst h <;> simp [validate, fldName]
  · intro v hv hblank
    rcases r with ⟨e, p, t⟩
    cases f <;> simp only [fieldVal] at hv <;> subst hv <;>
      simp [validate, fldName, hblank]

/-- Witness for claim C8: a blank part_number and an absent timestamp each
produce their issue on a concrete record. -/
theorem claim8_witness :
    Issue.error "part_number" "must not be empty" ∈
      validate { event_id := some ['a'], part_number := some [' '], timestamp := none } ∧
    Issue.error "timestamp" "missing required field" ∈
      validate { event_id := some ['a'], part_number := some [' '], timestamp := none } := by
  constructor
  · exact (claim8_blank_and_missing _ Fld.part_number).2.1 [' '] rfl (by decide)
  · exact (claim8_blank_and_missing _ Fld.timestamp).1 rfl

/-- Claim C9: the composed pipeline never reports "must not be empty":
after normalization, blank fields have become absent, so the validator's
present-but-blank branch is unreachable. -/
theorem claim9_pipeline_no_blank (r : Order) :
    ∀ i ∈ validate (clean_input r), i.message ≠ "must not be empty" := by
  apply validate_no_blank_issue
  · intro v hv
    rw [clean_input_eq] at hv
    exact specNormField_some hv
  · intro v hv
    rw [clean_input_eq] at hv
    exact specNormPartField_some hv
  · intro v hv
    rw [clean_input_eq] at hv
    exact specNormField_some hv

/-- Witness for claim C9 at a concrete record whose cleaned form still has
a missing field. -/
theorem claim9_witness :
    (Issue.error "event_id" "missing required field").message ≠ "must not be empty" :=
  claim9_pipeline_no_blank
    { event_id := none, part_number := some ['b'], timestamp := some ['c'] } _ (by decide)

/-- Claim C10: the Severity type has a single inhabitant, every issue
produced by `validate` has error severity, the report's error count always
equals its total issue count, and a non-empty issue list from the pipeline
forces exit code 1 in single-file mode. -/
theorem claim10_severity_invariant (r : Order) :
    (∀ s : Severity, s = Severity.error) ∧
    (∀ i ∈ validate r, i.severity = Severity.error) ∧
    (print_report (validate r)).errors = (print_report (validate r)).total ∧
    (validate (clean_input r) ≠ [] → mainRun (InputPath.file (FileResult.ok r)) = 1) := by
  have hsev : ∀ s : Severity, s = Severity.error := fun s => by cases s; rfl
  have hpred : ∀ i : Issue, (match i.severity with | Severity.error => true) = true :=
    fun i => by rcases i with ⟨f, sv, m⟩; cases sv; rfl
  refine ⟨hsev, fun i _ => hsev i.severity, ?_, ?_⟩
  · simp only [print_report]
    rw [List.filter_eq_self.mpr fun a _ => hpred a]
  · intro h
    obtain ⟨i, hi⟩ := List.exists_mem_of_ne_nil _ h
    have hha : hasError (validate (clean_input r)) = true := by
      rw [hasError, List.any_eq_true]
      exact ⟨i, hi, hpred i⟩
    simp [mainRun, hha]

/-- Witness for claim C10 at the all-absent record, whose pipeline yields
three issues and exit code 1. -/
theorem claim10_witness :
    (Issue.error "event_id" "missing required field").severity = Severity.error ∧
    mainRun (InputPath.file (FileResult.ok sampleMissing)) = 1 := by
  constructor
  · exact (claim10_severity_invariant sampleMissing).2.1 _ (by decide)
  · exact (claim10_severity_invariant sampleMissing).2.2.2 (by decide)

end IVCli
